import Mathlib

/-
Verification of the crowdfunding settlement core: the fund, withdraw,
create-project and process-refund request handlers from the Express routes
file, over the SQLite-backed storage layer (DatabaseStorage).

Modelling conventions, justified against the source:
- All monetary amounts are persisted as decimal strings and every handler
  reads them back with parseFloat and computes with JavaScript numbers,
  that is IEEE-754 binary64.  We model a binary64 value by the rational
  number it denotes, and parseFloat of a decimal string by roundD, the
  round-to-nearest, ties-to-even rounding into 53 significant binary
  digits.  Overflow and subnormal underflow (beyond 1e308 and below
  1e-308) are not modelled; every quantity in the claims is far inside
  the normal range, where this model is exact.
- A stored currentAmount string is always either the initial "0" or
  produced by Number.prototype.toString of a computed double; since
  toString round-trips exactly through parseFloat, the model keeps the
  double value itself in the state.
- Raw caller-supplied amount strings (transaction amounts and refund
  amounts are stored verbatim) are kept as the exact rational value the
  decimal string denotes; the handlers apply roundD at each parseFloat
  site, mirroring the source.
- Database rows are modelled as maps from the integer primary key to an
  optional record; fields irrelevant to every claim (title, description,
  category, image, createdAt and the user table) are omitted.
-/

set_option maxRecDepth 4000

set_option allowUnsafeReducibility true in
attribute [semireducible] Rat.add Rat.sub Rat.mul Rat.div Rat.inv Rat.neg

namespace CrowdFund

/-- Fuel-driven base-2 logarithm on naturals: log2Nat f n computes the floor
of log2 n provided n is at most f and n is positive. -/
def log2Nat : Nat → Nat → Nat
  | 0, _ => 0
  | f + 1, n => if n < 2 then 0 else log2Nat f (n / 2) + 1

/-- Floor of the base-2 logarithm of a positive natural. -/
def flog2 (n : Nat) : Nat := log2Nat n n

/-- Power of two as a rational, for an integer exponent of either sign. -/
def pow2 (e : ℤ) : ℚ :=
  match e with
  | .ofNat n => ((2 ^ n : ℕ) : ℚ)
  | .negSucc n => (((2 ^ (n + 1) : ℕ) : ℚ))⁻¹

/-- Binary exponent of a positive rational: the unique e with
2 pow e ≤ q < 2 pow (e + 1). -/
def findExp (q : ℚ) : ℤ :=
  if pow2 ((flog2 q.num.toNat : ℤ) - (flog2 q.den : ℤ)) ≤ q
  then (flog2 q.num.toNat : ℤ) - (flog2 q.den : ℤ)
  else (flog2 q.num.toNat : ℤ) - (flog2 q.den : ℤ) - 1

/-- Round a rational to the nearest integer, ties to even. -/
def roundHalfEven (q : ℚ) : ℤ :=
  if q - ⌊q⌋ < 1 / 2 then ⌊q⌋
  else if 1 / 2 < q - ⌊q⌋ then ⌊q⌋ + 1
  else if ⌊q⌋ % 2 = 0 then ⌊q⌋ else ⌊q⌋ + 1

/-- Round a positive rational to 53 significant binary digits,
ties to even: the scaled mantissa is rounded to an integer and scaled
back. -/
def roundPos (q : ℚ) : ℚ :=
  ((roundHalfEven (q * pow2 (52 - findExp q)) : ℤ) : ℚ) * pow2 (findExp q - 52)

/-- IEEE-754 binary64 rounding of an exact rational value, restricted to
the normal range (no overflow or subnormal handling, which no monetary
magnitude in this system reaches).  This models both parseFloat on a
decimal string and the rounding JavaScript applies after each arithmetic
operation on doubles. -/
def roundD (q : ℚ) : ℚ :=
  if q = 0 then 0
  else if 0 < q then roundPos q
  else -roundPos (-q)

/-- Projects table row (shared/schema.ts, projects): fields used by the
settlement handlers.  goalAmount holds the binary64 value parseFloat
yields on the stored goal string, currentAmount the binary64 value of the
stored running total, deadline the epoch timestamp. -/
structure Project where
  creatorId : String
  goalAmount : ℚ
  currentAmount : ℚ
  deadline : ℤ
  isActive : Bool
  withdrawn : Bool
deriving DecidableEq

/-- Transactions table row (shared/schema.ts, transactions).  The amount
is stored as the raw request string; we keep the exact rational value that
decimal string denotes. -/
structure Transaction where
  projectId : ℕ
  donorId : Option String
  donorWalletAddress : Option String
  amount : ℚ
  transactionType : String
  transactionHash : Option String
deriving DecidableEq

/-- Refund request row (shared/schema.ts, refund_requests); creatorId is
denormalized from the project at creation.  amount is the exact rational
value of the stored decimal string. -/
structure RefundRequest where
  projectId : ℕ
  donorId : String
  transactionId : Option ℕ
  amount : ℚ
  creatorId : String
  approved : Bool
deriving DecidableEq

/-- Stored state: the projects, transactions and refund-request tables.
nextProjectId models the autoincrement primary key counter. -/
@[ext] structure St where
  projects : ℕ → Option Project
  txns : List Transaction
  refunds : ℕ → Option RefundRequest
  nextProjectId : ℕ

/-- HTTP outcome of a handler: status code plus the message of the JSON
body (empty for the 201 responses, whose body is the created entity). -/
structure Resp where
  status : ℕ
  msg : String
deriving DecidableEq

/-- DatabaseStorage.updateProjectAmount: overwrite currentAmount of the
row with the given id, if present. -/
def updateProjectAmount (st : St) (pid : ℕ) (amount : ℚ) : St :=
  { st with projects := fun i =>
      if i = pid then (st.projects i).map (fun p => { p with currentAmount := amount })
      else st.projects i }

/-- DatabaseStorage.markProjectWithdrawn: set withdrawn of the row with
the given id, if present. -/
def markProjectWithdrawn (st : St) (pid : ℕ) : St :=
  { st with projects := fun i =>
      if i = pid then (st.projects i).map (fun p => { p with withdrawn := true })
      else st.projects i }

/-- DatabaseStorage.createTransaction: insert a transactions row. -/
def createTransaction (st : St) (t : Transaction) : St :=
  { st with txns := st.txns ++ [t] }

/-- DatabaseStorage.processRefundRequest: set the approved column of the
refund row with the given id to the supplied boolean, if the row exists
(the update matches no row otherwise). -/
def processRefundRequest (st : St) (rid : ℕ) (approved : Bool) : St :=
  { st with refunds := fun i =>
      if i = rid then (st.refunds i).map (fun r => { r with approved := approved })
      else st.refunds i }

/-- Lookup used by the process-refund route: it fetches
getRefundRequestsByCreator(caller) and filters that list by the refund
id, so the refund is found exactly when the row exists and its
denormalized creatorId equals the caller. -/
def refundLookupByCreator (st : St) (caller : String) (rid : ℕ) : Option RefundRequest :=
  match st.refunds rid with
  | some r => if r.creatorId = caller then some r else none
  | none => none

/-- POST /api/projects/:id/fund handler: validates transaction type and
amount, requires the project to exist, the deadline not to have passed
(strict comparison: now > deadline rejects), the project to be active and
the goal not yet reached; then creates the transaction and writes
currentAmount + amount computed in binary64.  The amount argument is the
exact decimal value of the request amount, or none when parseFloat gives
NaN. -/
def fundHandler (now : ℤ) (pid : ℕ) (caller : String) (amount : Option ℚ) (ty : String)
    (wallet txHash : Option String) (st : St) : Resp × St :=
  if ¬ (ty = "real" ∨ ty = "demo") then (⟨400, "Invalid transaction type"⟩, st)
  else
    match amount with
    | none => (⟨400, "Invalid amount"⟩, st)
    | some v =>
      if roundD v ≤ 0 then (⟨400, "Invalid amount"⟩, st)
      else
        match st.projects pid with
        | none => (⟨404, "Project not found"⟩, st)
        | some p =>
          if p.deadline < now then (⟨400, "Project deadline has passed"⟩, st)
          else if ¬ p.isActive then (⟨400, "Project is not active"⟩, st)
          else if p.goalAmount ≤ p.currentAmount then
            (⟨400, "Funding goal has been reached. No more transactions accepted."⟩, st)
          else
            let st1 := createTransaction st
              { projectId := pid, donorId := some caller, donorWalletAddress := wallet,
                amount := v, transactionType := ty, transactionHash := txHash }
            (⟨201, ""⟩, updateProjectAmount st1 pid (roundD (p.currentAmount + roundD v)))

/-- POST /api/projects/:id/withdraw handler: requires the project to
exist, the caller to be the creator, the project not already withdrawn,
the goal met, and the deadline not passed; then marks it withdrawn. -/
def withdrawHandler (now : ℤ) (pid : ℕ) (caller : String) (st : St) : Resp × St :=
  match st.projects pid with
  | none => (⟨404, "Project not found"⟩, st)
  | some p =>
    if ¬ (p.creatorId = caller) then
      (⟨403, "Only the project creator can withdraw funds"⟩, st)
    else if p.withdrawn then (⟨400, "Funds already withdrawn"⟩, st)
    else if p.currentAmount < p.goalAmount then (⟨400, "Funding goal not met"⟩, st)
    else if p.deadline < now then (⟨400, "Cannot withdraw after deadline"⟩, st)
    else (⟨200, "Funds withdrawn successfully"⟩, markProjectWithdrawn st pid)

/-- POST /api/refund-requests/:id/process handler.  When the body says
approved, the route looks the refund up through the list scoped to the
caller as creator; if found, not yet approved, and its project exists,
it writes max(0, currentAmount - amount) computed in binary64.  In every
case it then unconditionally sets the approved column to the supplied
boolean and answers 200. -/
def processRefundHandler (rid : ℕ) (caller : String) (approved : Bool) (st : St) : Resp × St :=
  let st1 :=
    if approved then
      match refundLookupByCreator st caller rid with
      | some r =>
        if r.approved then st
        else
          match st.projects r.projectId with
          | some p =>
            updateProjectAmount st r.projectId (max 0 (roundD (p.currentAmount - roundD r.amount)))
          | none => st
      | none => st
    else st
  (⟨200, "Refund request processed successfully"⟩, processRefundRequest st1 rid approved)

/-- Request body of POST /api/projects after the route-level coercions:
goalAmount is the raw string checked non-empty by insertProjectSchema,
goalValue the binary64 value parseFloat later yields on it, deadline the
coerced epoch-seconds integer checked positive by the schema.  The
currentAmount, isActive and withdrawn members stand for caller-supplied
values of those columns; insertProjectSchema omits them, so zod strips
them from the parsed data whatever they are. -/
structure CreateProjectBody where
  goalAmount : String
  goalValue : ℚ
  deadline : ℤ
  category : Option String
  currentAmount : Option String
  isActive : Option Bool
  withdrawn : Option Bool

/-- POST /api/projects handler: defaults the category, validates through
insertProjectSchema (non-empty goal string, positive integer deadline,
category in the enum), then inserts the row; the omitted columns take the
table defaults: currentAmount "0", isActive true, withdrawn false. -/
def createProjectHandler (caller : String) (b : CreateProjectBody) (st : St) : Resp × St :=
  let category := b.category.getD "other"
  if b.goalAmount.length = 0 then (⟨400, "Validation error"⟩, st)
  else if ¬ (0 < b.deadline) then (⟨400, "Validation error"⟩, st)
  else if ¬ (category = "tech" ∨ category = "art" ∨ category = "social" ∨
      category = "environment" ∨ category = "other") then (⟨400, "Validation error"⟩, st)
  else
    let p : Project :=
      { creatorId := caller, goalAmount := b.goalValue, currentAmount := 0,
        deadline := b.deadline, isActive := true, withdrawn := false }
    (⟨201, ""⟩,
      { st with
        projects := fun i => if i = st.nextProjectId then some p else st.projects i,
        nextProjectId := st.nextProjectId + 1 })

/-- One settlement operation hitting the balance-relevant routes: a fund
request, a process-refund request, or a withdraw request. -/
inductive FundingOp where
  | fund (now : ℤ) (pid : ℕ) (caller : String) (amount : Option ℚ) (ty : String)
      (wallet txHash : Option String)
  | process (rid : ℕ) (caller : String) (approved : Bool)
  | withdrawal (now : ℤ) (pid : ℕ) (caller : String)

/-- State reached after serving one operation. -/
def stepOp (o : FundingOp) (st : St) : St :=
  match o with
  | .fund now pid caller amount ty wallet txHash =>
    (fundHandler now pid caller amount ty wallet txHash st).2
  | .process rid caller approved => (processRefundHandler rid caller approved st).2
  | .withdrawal now pid caller => (withdrawHandler now pid caller st).2

/-- State reached after serving a sequence of operations in order. -/
def runOps : List FundingOp → St → St
  | [], st => st
  | o :: os, st => runOps os (stepOp o st)

/-- One change applied to a running total: an accepted contribution or an
approved refund deduction, each carrying the parsed binary64 amount. -/
inductive Delta where
  | contrib (a : ℚ)
  | refundDed (a : ℚ)
deriving DecidableEq

/-- Accumulation of a list of changes exactly as the handlers compute it:
additions and subtractions in binary64, each deduction clamped at zero. -/
def settle (c : ℚ) : List Delta → ℚ
  | [] => c
  | Delta.contrib a :: ds => settle (roundD (c + a)) ds
  | Delta.refundDed a :: ds => settle (max 0 (roundD (c - a))) ds

/-- Declarative acceptance condition of a fund request, returning the
parsed binary64 contribution amount when the fund handler accepts it. -/
def acceptedContribution (now : ℤ) (pid : ℕ) (amount : Option ℚ) (ty : String) (st : St) :
    Option ℚ :=
  match amount, st.projects pid with
  | some v, some p =>
    if (ty = "real" ∨ ty = "demo") ∧ 0 < roundD v ∧ now ≤ p.deadline ∧ p.isActive = true ∧
        p.currentAmount < p.goalAmount
    then some (roundD v) else none
  | _, _ => none

/-- Declarative condition for a process-refund request to deduct: it must
approve a not-yet-approved refund whose creatorId matches the caller and
whose project exists; returns the project id and binary64 deduction. -/
def approvedDeduction (rid : ℕ) (caller : String) (approved : Bool) (st : St) :
    Option (ℕ × ℚ) :=
  if approved then
    match refundLookupByCreator st caller rid with
    | some r =>
      if r.approved then none
      else
        match st.projects r.projectId with
        | some _ => some (r.projectId, roundD r.amount)
        | none => none
    | none => none
  else none

/-- Change that one operation applies to the running total of the given
project, if any. -/
def opDelta (pid : ℕ) (o : FundingOp) (st : St) : Option Delta :=
  match o with
  | .fund now pid2 _ amount ty _ _ =>
    if pid2 = pid then (acceptedContribution now pid2 amount ty st).map Delta.contrib else none
  | .process rid caller approved =>
    match approvedDeduction rid caller approved st with
    | some pr => if pr.1 = pid then some (Delta.refundDed pr.2) else none
    | none => none
  | .withdrawal _ _ _ => none

/-- Changes a sequence of operations applies to the given project, in
order, evaluated against the intermediate states. -/
def opTrace (pid : ℕ) : List FundingOp → St → List Delta
  | [], _ => []
  | o :: os, st => (opDelta pid o st).toList ++ opTrace pid os (stepOp o st)

/-- Stored currentAmount of a project, when the row exists. -/
def currentOf (st : St) (pid : ℕ) : Option ℚ := (st.projects pid).map Project.currentAmount

theorem log2Nat_bounds : ∀ f n : ℕ, 0 < n → n ≤ f →
    2 ^ log2Nat f n ≤ n ∧ n < 2 ^ (log2Nat f n + 1) := by
  intro f
  induction f with
  | zero => intro n h1 h2; exact absurd h1 (by omega)
  | succ f ih =>
    intro n h1 h2
    by_cases hn : n < 2
    · have hz : log2Nat (f + 1) n = 0 := by simp [log2Nat, hn]
      rw [hz]
      constructor
      · simpa using h1
      · simpa using hn
    · have hrec := ih (n / 2) (by omega) (by omega)
      have hdef : log2Nat (f + 1) n = log2Nat f (n / 2) + 1 := by simp [log2Nat, hn]
      rw [hdef]
      simp only [pow_succ] at hrec ⊢
      omega

theorem flog2_le {n : ℕ} (h : 0 < n) : 2 ^ flog2 n ≤ n :=
  (log2Nat_bounds n n h le_rfl).1

theorem lt_flog2_succ {n : ℕ} (h : 0 < n) : n < 2 ^ (flog2 n + 1) :=
  (log2Nat_bounds n n h le_rfl).2

theorem pow2_eq_zpow (e : ℤ) : pow2 e = (2 : ℚ) ^ e := by
  cases e with
  | ofNat n =>
    show ((2 ^ n : ℕ) : ℚ) = (2 : ℚ) ^ (n : ℤ)
    rw [zpow_natCast]
    push_cast
    ring
  | negSucc n =>
    show (((2 ^ (n + 1) : ℕ) : ℚ))⁻¹ = (2 : ℚ) ^ (Int.negSucc n)
    rw [zpow_negSucc]
    push_cast
    ring

theorem cast_two_pow_eq_zpow (n : ℕ) : ((2 ^ n : ℕ) : ℚ) = (2 : ℚ) ^ (n : ℤ) := by
  rw [zpow_natCast]
  push_cast
  ring

theorem findExp_brackets {q : ℚ} (hq : 0 < q) :
    (2 : ℚ) ^ ((flog2 q.num.toNat : ℤ) - (flog2 q.den : ℤ) - 1) < q ∧
    q < (2 : ℚ) ^ ((flog2 q.num.toNat : ℤ) - (flog2 q.den : ℤ) + 1) := by
  have hnum : (0 : ℤ) < q.num := Rat.num_pos.mpr hq
  have ha : 0 < q.num.toNat := by omega
  have hb : 0 < q.den := q.den_pos
  have h1 := flog2_le ha
  have h2 := lt_flog2_succ ha
  have h3 := flog2_le hb
  have h4 := lt_flog2_succ hb
  have hqa : ((q.num.toNat : ℕ) : ℚ) = (q.num : ℚ) := by
    have := Int.toNat_of_nonneg (le_of_lt hnum)
    exact_mod_cast congrArg (fun z : ℤ => (z : ℚ)) this
  have hqeq : q = ((q.num.toNat : ℕ) : ℚ) / ((q.den : ℕ) : ℚ) := by
    rw [hqa, Rat.num_div_den]
  have haq : (2 : ℚ) ^ ((flog2 q.num.toNat : ℤ)) ≤ ((q.num.toNat : ℕ) : ℚ) := by
    rw [← cast_two_pow_eq_zpow]
    exact_mod_cast h1
  have haq2 : ((q.num.toNat : ℕ) : ℚ) < (2 : ℚ) ^ ((flog2 q.num.toNat : ℤ) + 1) := by
    have : ((flog2 q.num.toNat : ℤ) + 1) = ((flog2 q.num.toNat + 1 : ℕ) : ℤ) := by push_cast; ring
    rw [this, ← cast_two_pow_eq_zpow]
    exact_mod_cast h2
  have hbq : (2 : ℚ) ^ ((flog2 q.den : ℤ)) ≤ ((q.den : ℕ) : ℚ) := by
    rw [← cast_two_pow_eq_zpow]
    exact_mod_cast h3
  have hbq2 : ((q.den : ℕ) : ℚ) < (2 : ℚ) ^ ((flog2 q.den : ℤ) + 1) := by
    have : ((flog2 q.den : ℤ) + 1) = ((flog2 q.den + 1 : ℕ) : ℤ) := by push_cast; ring
    rw [this, ← cast_two_pow_eq_zpow]
    exact_mod_cast h4
  have haq0 : (0 : ℚ) < ((q.num.toNat : ℕ) : ℚ) := by exact_mod_cast ha
  have hbq0 : (0 : ℚ) < ((q.den : ℕ) : ℚ) := by exact_mod_cast hb
  set la : ℤ := (flog2 q.num.toNat : ℤ) with hla
  set lb : ℤ := (flog2 q.den : ℤ) with hlb
  set A : ℚ := ((q.num.toNat : ℕ) : ℚ) with hA
  set B : ℚ := ((q.den : ℕ) : ℚ) with hB
  constructor
  · rw [sub_sub, zpow_sub₀ (by norm_num : (2 : ℚ) ≠ 0), hqeq,
      div_lt_div_iff₀ (zpow_pos (by norm_num) _) hbq0]
    calc (2 : ℚ) ^ la * B ≤ A * B := mul_le_mul_of_nonneg_right haq (le_of_lt hbq0)
      _ < A * (2 : ℚ) ^ (lb + 1) := mul_lt_mul_of_pos_left hbq2 haq0
  · have hstep : la - lb + 1 = (la + 1) - lb := by ring
    rw [hstep, zpow_sub₀ (by norm_num : (2 : ℚ) ≠ 0), hqeq,
      div_lt_div_iff₀ hbq0 (zpow_pos (by norm_num) _)]
    calc A * (2 : ℚ) ^ lb < (2 : ℚ) ^ (la + 1) * (2 : ℚ) ^ lb :=
          mul_lt_mul_of_pos_right haq2 (zpow_pos (by norm_num) _)
      _ ≤ (2 : ℚ) ^ (la + 1) * B :=
          mul_le_mul_of_nonneg_left hbq (le_of_lt (zpow_pos (by norm_num) _))

theorem findExp_le {q : ℚ} (hq : 0 < q) : (2 : ℚ) ^ findExp q ≤ q := by
  unfold findExp
  split_ifs with h
  · rwa [pow2_eq_zpow] at h
  · exact le_of_lt (findExp_brackets hq).1

theorem lt_findExp_succ {q : ℚ} (hq : 0 < q) : q < (2 : ℚ) ^ (findExp q + 1) := by
  unfold findExp
  split_ifs with h
  · exact (findExp_brackets hq).2
  · rw [pow2_eq_zpow] at h
    rw [sub_add_cancel]
    exact lt_of_not_le h

theorem floor_le_roundHalfEven (q : ℚ) : ⌊q⌋ ≤ roundHalfEven q := by
  unfold roundHalfEven
  split_ifs <;> omega

theorem le_roundPos {q : ℚ} (hq : 0 < q) : (2 : ℚ) ^ findExp q ≤ roundPos q := by
  unfold roundPos
  rw [pow2_eq_zpow, pow2_eq_zpow]
  have hscaled : (2 : ℚ) ^ (52 : ℤ) ≤ q * (2 : ℚ) ^ ((52 : ℤ) - findExp q) := by
    calc (2 : ℚ) ^ (52 : ℤ)
        = (2 : ℚ) ^ findExp q * (2 : ℚ) ^ ((52 : ℤ) - findExp q) := by
          rw [← zpow_add₀ (by norm_num : (2 : ℚ) ≠ 0)]
          norm_num
      _ ≤ q * (2 : ℚ) ^ ((52 : ℤ) - findExp q) :=
          mul_le_mul_of_nonneg_right (findExp_le hq) (le_of_lt (zpow_pos (by norm_num) _))
  have hfloor : ((2 : ℚ) ^ (52 : ℕ) : ℚ) ≤
      ((roundHalfEven (q * (2 : ℚ) ^ ((52 : ℤ) - findExp q)) : ℤ) : ℚ) := by
    have h52 : ((2 ^ 52 : ℤ) : ℚ) ≤ q * (2 : ℚ) ^ ((52 : ℤ) - findExp q) := by
      calc ((2 ^ 52 : ℤ) : ℚ) = (2 : ℚ) ^ (52 : ℤ) := by push_cast; norm_num
        _ ≤ _ := hscaled
    have hfl : (2 ^ 52 : ℤ) ≤ ⌊q * (2 : ℚ) ^ ((52 : ℤ) - findExp q)⌋ := Int.le_floor.mpr h52
    have hrhe := floor_le_roundHalfEven (q * (2 : ℚ) ^ ((52 : ℤ) - findExp q))
    have : (2 ^ 52 : ℤ) ≤ roundHalfEven (q * (2 : ℚ) ^ ((52 : ℤ) - findExp q)) := le_trans hfl hrhe
    exact_mod_cast this
  calc (2 : ℚ) ^ findExp q
      = (2 : ℚ) ^ (52 : ℕ) * (2 : ℚ) ^ (findExp q - 52) := by
        rw [← zpow_natCast (2 : ℚ) 52, ← zpow_add₀ (by norm_num : (2 : ℚ) ≠ 0)]
        norm_num
    _ ≤ ((roundHalfEven (q * (2 : ℚ) ^ ((52 : ℤ) - findExp q)) : ℤ) : ℚ) *
        (2 : ℚ) ^ (findExp q - 52) :=
        mul_le_mul_of_nonneg_right hfloor (le_of_lt (zpow_pos (by norm_num) _))

theorem half_lt_roundD {q : ℚ} (hq : 0 < q) : q / 2 < roundD q := by
  unfold roundD
  rw [if_neg (ne_of_gt hq), if_pos hq]
  have h1 : q / 2 < (2 : ℚ) ^ findExp q := by
    have h2 := lt_findExp_succ hq
    rw [zpow_add₀ (by norm_num : (2 : ℚ) ≠ 0)] at h2
    rw [div_lt_iff₀ (by norm_num : (0 : ℚ) < 2)]
    simpa using h2
  exact lt_of_lt_of_le h1 (le_roundPos hq)

theorem roundD_pos {q : ℚ} (hq : 0 < q) : 0 < roundD q :=
  lt_trans (by positivity) (half_lt_roundD hq)

/-- Effect of an optional change on a running total, as the handlers
compute it. -/
def applyDelta (c : ℚ) : Option Delta → ℚ
  | none => c
  | some (Delta.contrib a) => roundD (c + a)
  | some (Delta.refundDed a) => max 0 (roundD (c - a))

theorem currentOf_updateProjectAmount (st : St) (pid pid2 : ℕ) (a : ℚ) :
    currentOf (updateProjectAmount st pid a) pid2 =
      if pid2 = pid then (st.projects pid2).map (fun _ => a) else currentOf st pid2 := by
  unfold currentOf updateProjectAmount
  by_cases h : pid2 = pid
  · simp only [h, if_pos rfl]
    cases st.projects pid <;> simp
  · simp only [if_neg h]

theorem currentOf_createTransaction (st : St) (t : Transaction) (pid : ℕ) :
    currentOf (createTransaction st t) pid = currentOf st pid := rfl

theorem currentOf_markProjectWithdrawn (st : St) (pid pid2 : ℕ) :
    currentOf (markProjectWithdrawn st pid) pid2 = currentOf st pid2 := by
  unfold currentOf markProjectWithdrawn
  by_cases h : pid2 = pid
  · simp only [h, if_pos rfl]
    cases st.projects pid <;> simp
  · simp only [if_neg h]

theorem currentOf_processRefundRequest (st : St) (rid : ℕ) (b : Bool) (pid : ℕ) :
    currentOf (processRefundRequest st rid b) pid = currentOf st pid := rfl

theorem settle_toList_append (c : ℚ) (d : Option Delta) (ds : List Delta) :
    settle c (d.toList ++ ds) = settle (applyDelta c d) ds := by
  cases d with
  | none => rfl
  | some d0 => cases d0 <;> rfl

theorem createTransaction_projects (st : St) (t : Transaction) :
    (createTransaction st t).projects = st.projects := rfl

theorem currentOf_stepOp_none (o : FundingOp) (st : St) (pid : ℕ)
    (hc : currentOf st pid = none) :
    currentOf (stepOp o st) pid = none := by
  have hp : st.projects pid = none := by
    unfold currentOf at hc
    cases h : st.projects pid
    · rfl
    · rw [h] at hc
      simp at hc
  cases o with
  | fund now pid2 caller amount ty wallet txHash =>
    show currentOf (fundHandler now pid2 caller amount ty wallet txHash st).2 pid = none
    unfold fundHandler
    repeat' split
    all_goals
      simp [currentOf, updateProjectAmount, createTransaction, hp]
  | process rid caller approved =>
    show currentOf (processRefundHandler rid caller approved st).2 pid = none
    unfold processRefundHandler
    repeat' split
    all_goals
      simp [currentOf, processRefundRequest, updateProjectAmount, hp]
  | withdrawal now pid2 caller =>
    show currentOf (withdrawHandler now pid2 caller st).2 pid = none
    unfold withdrawHandler
    repeat' split
    all_goals
      simp [currentOf, markProjectWithdrawn, hp]

theorem currentOf_stepOp_some (o : FundingOp) (st : St) (pid : ℕ) (c : ℚ)
    (hc : currentOf st pid = some c) :
    currentOf (stepOp o st) pid = some (applyDelta c (opDelta pid o st)) := by
  cases o with
  | fund now pid2 caller amount ty wallet txHash =>
    show currentOf (fundHandler now pid2 caller amount ty wallet txHash st).2 pid = _
    unfold fundHandler opDelta acceptedContribution
    cases amount with
    | none => split_ifs <;> simp [hc, applyDelta]
    | some v =>
      cases hp2 : st.projects pid2 with
      | none =>
        simp only [hp2]
        split_ifs <;> simp [hc, applyDelta]
      | some p =>
        simp only [hp2]
        by_cases hty : ty = "real" ∨ ty = "demo"
        · rw [if_neg (not_not_intro hty)]
          by_cases hv : roundD v ≤ 0
          · rw [if_pos hv, if_neg (show ¬ ((ty = "real" ∨ ty = "demo") ∧ 0 < roundD v ∧
              now ≤ p.deadline ∧ p.isActive = true ∧ p.currentAmount < p.goalAmount) from
              fun h => absurd h.2.1 (not_lt.mpr hv))]
            simp [hc, applyDelta]
          · rw [if_neg hv]
            by_cases hd : p.deadline < now
            · rw [if_pos hd, if_neg (show ¬ ((ty = "real" ∨ ty = "demo") ∧ 0 < roundD v ∧
                now ≤ p.deadline ∧ p.isActive = true ∧ p.currentAmount < p.goalAmount) from
                fun h => absurd h.2.2.1 (not_le.mpr hd))]
              simp [hc, applyDelta]
            · rw [if_neg hd]
              by_cases hact : p.isActive = true
              · rw [if_neg (not_not_intro hact)]
                by_cases hg : p.goalAmount ≤ p.currentAmount
                · rw [if_pos hg, if_neg (show ¬ ((ty = "real" ∨ ty = "demo") ∧ 0 < roundD v ∧
                    now ≤ p.deadline ∧ p.isActive = true ∧ p.currentAmount < p.goalAmount) from
                    fun h => absurd h.2.2.2.2 (not_lt.mpr hg))]
                  simp [hc, applyDelta]
                · rw [if_neg hg, if_pos (show (ty = "real" ∨ ty = "demo") ∧ 0 < roundD v ∧
                    now ≤ p.deadline ∧ p.isActive = true ∧ p.currentAmount < p.goalAmount from
                    ⟨hty, not_le.mp hv, not_lt.mp hd, hact, not_le.mp hg⟩)]
                  show currentOf (updateProjectAmount (createTransaction st
                    { projectId := pid2, donorId := some caller, donorWalletAddress := wallet,
                      amount := v, transactionType := ty, transactionHash := txHash }) pid2
                    (roundD (p.currentAmount + roundD v))) pid = _
                  rw [currentOf_updateProjectAmount, createTransaction_projects]
                  by_cases hpp : pid = pid2
                  · rw [if_pos hpp, if_pos hpp.symm, hpp, hp2]
                    unfold currentOf at hc
                    rw [hpp, hp2] at hc
                    simp only [Option.map_some'] at hc
                    rw [Option.some.injEq] at hc
                    rw [← hc]
                    simp [applyDelta]
                  · rw [if_neg hpp, if_neg (fun h => hpp h.symm), currentOf_createTransaction,
                      hc]
                    simp [applyDelta]
              · rw [if_pos hact, if_neg (show ¬ ((ty = "real" ∨ ty = "demo") ∧ 0 < roundD v ∧
                  now ≤ p.deadline ∧ p.isActive = true ∧ p.currentAmount < p.goalAmount) from
                  fun h => absurd h.2.2.2.1 hact)]
                simp [hc, applyDelta]
        · rw [if_pos hty, if_neg (show ¬ ((ty = "real" ∨ ty = "demo") ∧ 0 < roundD v ∧
            now ≤ p.deadline ∧ p.isActive = true ∧ p.currentAmount < p.goalAmount) from
            fun h => absurd h.1 hty)]
          simp [hc, applyDelta]
  | process rid caller approved =>
    show currentOf (processRefundHandler rid caller approved st).2 pid = _
    unfold processRefundHandler opDelta approvedDeduction
    rw [currentOf_processRefundRequest]
    cases approved with
    | false => simp [hc, applyDelta]
    | true =>
      simp only [reduceIte]
      cases hr : refundLookupByCreator st caller rid with
      | none => simp [hc, applyDelta]
      | some r =>
        by_cases hap : r.approved = true
        · simp [hap, hc, applyDelta]
        · dsimp only []
          rw [if_neg hap, if_neg hap]
          cases hp : st.projects r.projectId with
          | none => simp [hc, applyDelta]
          | some p =>
            rw [currentOf_updateProjectAmount]
            dsimp only []
            by_cases hpp : pid = r.projectId
            · rw [if_pos hpp, if_pos hpp.symm, hpp, hp]
              unfold currentOf at hc
              rw [hpp, hp] at hc
              simp only [Option.map_some'] at hc
              rw [Option.some.injEq] at hc
              rw [← hc]
              simp [applyDelta]
            · rw [if_neg hpp, if_neg (fun h => hpp h.symm), hc]
              simp [applyDelta]
  | withdrawal now pid2 caller =>
    show currentOf (withdrawHandler now pid2 caller st).2 pid = _
    unfold withdrawHandler opDelta
    cases hp2 : st.projects pid2 with
    | none =>
      rw [hc]
      simp [applyDelta]
    | some p =>
      dsimp only []
      split_ifs <;>
        simp [currentOf_markProjectWithdrawn, hc, applyDelta]

theorem refundLookupByCreator_eq (st : St) (caller : String) (rid : ℕ) (r : RefundRequest)
    (hr : st.refunds rid = some r) (hcr : r.creatorId = caller) :
    refundLookupByCreator st caller rid = some r := by
  simp [refundLookupByCreator, hr, hcr]

theorem refundLookupByCreator_wrong_creator (st : St) (caller : String) (rid : ℕ)
    (r : RefundRequest) (hr : st.refunds rid = some r) (hne : ¬ r.creatorId = caller) :
    refundLookupByCreator st caller rid = none := by
  simp [refundLookupByCreator, hr, hne]

theorem refundLookupByCreator_missing (st : St) (caller : String) (rid : ℕ)
    (hr : st.refunds rid = none) : refundLookupByCreator st caller rid = none := by
  simp [refundLookupByCreator, hr]

theorem processRefundRequest_projects (st : St) (rid : ℕ) (b : Bool) :
    (processRefundRequest st rid b).projects = st.projects := rfl

theorem updateProjectAmount_refunds (st : St) (pid : ℕ) (a : ℚ) :
    (updateProjectAmount st pid a).refunds = st.refunds := rfl

theorem processRefundRequest_refunds_self (st : St) (rid : ℕ) (b : Bool) :
    (processRefundRequest st rid b).refunds rid =
      (st.refunds rid).map (fun r => { r with approved := b }) := by
  unfold processRefundRequest
  simp

theorem processRefundRequest_missing (st : St) (rid : ℕ) (b : Bool)
    (hr : st.refunds rid = none) : processRefundRequest st rid b = st := by
  unfold processRefundRequest
  have hfun : (fun i => if i = rid then (st.refunds i).map (fun r => { r with approved := b })
      else st.refunds i) = st.refunds := by
    funext i
    by_cases h : i = rid
    · subst h
      rw [if_pos rfl, hr]
      rfl
    · rw [if_neg h]
  rw [hfun]

theorem updateProjectAmount_projects_self (st : St) (pid : ℕ) (a : ℚ) :
    (updateProjectAmount st pid a).projects pid =
      (st.projects pid).map (fun p => { p with currentAmount := a }) := by
  unfold updateProjectAmount
  simp

theorem markProjectWithdrawn_projects_self (st : St) (pid : ℕ) :
    (markProjectWithdrawn st pid).projects pid =
      (st.projects pid).map (fun p => { p with withdrawn := true }) := by
  unfold markProjectWithdrawn
  simp

theorem processRefundHandler_deducts (st : St) (rid : ℕ) (caller : String)
    (r : RefundRequest) (p : Project)
    (hr : st.refunds rid = some r) (hcr : r.creatorId = caller) (hap : r.approved = false)
    (hp : st.projects r.projectId = some p) :
    processRefundHandler rid caller true st =
      (⟨200, "Refund request processed successfully"⟩,
        processRefundRequest (updateProjectAmount st r.projectId
          (max 0 (roundD (p.currentAmount - roundD r.amount)))) rid true) := by
  unfold processRefundHandler
  rw [refundLookupByCreator_eq st caller rid r hr hcr]
  simp [hap, hp]

theorem processRefundHandler_already_approved (st : St) (rid : ℕ) (caller : String)
    (r : RefundRequest)
    (hr : st.refunds rid = some r) (hcr : r.creatorId = caller) (hap : r.approved = true) :
    processRefundHandler rid caller true st =
      (⟨200, "Refund request processed successfully"⟩, processRefundRequest st rid true) := by
  unfold processRefundHandler
  rw [refundLookupByCreator_eq st caller rid r hr hcr]
  simp [hap]

theorem withdrawHandler_succeeds (now : ℤ) (pid : ℕ) (caller : String) (st : St) (p : Project)
    (hp : st.projects pid = some p) (hcr : p.creatorId = caller) (hw : p.withdrawn = false)
    (hg : ¬ p.currentAmount < p.goalAmount) (hd : ¬ p.deadline < now) :
    withdrawHandler now pid caller st =
      (⟨200, "Funds withdrawn successfully"⟩, markProjectWithdrawn st pid) := by
  unfold withdrawHandler
  rw [hp]
  dsimp only []
  rw [if_neg (not_not_intro hcr)]
  simp [hw]
  rw [if_neg hg, if_neg hd]

theorem fundHandler_accepts (now : ℤ) (pid : ℕ) (caller : String) (v : ℚ) (ty : String)
    (w h : Option String) (st : St) (p : Project)
    (hp : st.projects pid = some p) (hty : ty = "real" ∨ ty = "demo") (hv : 0 < roundD v)
    (hd : ¬ p.deadline < now) (hact : p.isActive = true) (hg : ¬ p.goalAmount ≤ p.currentAmount) :
    fundHandler now pid caller (some v) ty w h st =
      (⟨201, ""⟩, updateProjectAmount (createTransaction st
        { projectId := pid, donorId := some caller, donorWalletAddress := w,
          amount := v, transactionType := ty, transactionHash := h }) pid
        (roundD (p.currentAmount + roundD v))) := by
  unfold fundHandler
  rw [if_neg (not_not_intro hty)]
  dsimp only []
  rw [if_neg (not_le.mpr hv), hp]
  dsimp only []
  rw [if_neg hd, if_neg (not_not_intro hact), if_neg hg]

/-- Concrete project for witnesses: goal 100, nothing raised, deadline at
epoch time 10, active, not withdrawn. -/
def pDemo : Project :=
  { creatorId := "alice", goalAmount := 100, currentAmount := 0, deadline := 10,
    isActive := true, withdrawn := false }

/-- Concrete store holding only pDemo under project id 1. -/
def stDemo : St :=
  { projects := fun i => if i = 1 then some pDemo else none,
    txns := [], refunds := fun _ => none, nextProjectId := 2 }

/-- Variant of pDemo with 50 already raised. -/
def pHalf : Project := { pDemo with currentAmount := 50 }

/-- Pending refund request of 30 against project 1, creator alice. -/
def rDemo : RefundRequest :=
  { projectId := 1, donorId := "bob", transactionId := none, amount := 30,
    creatorId := "alice", approved := false }

/-- Store with project 1 at 50 raised and the pending refund under id 2. -/
def stRefund : St :=
  { projects := fun i => if i = 1 then some pHalf else none,
    txns := [], refunds := fun i => if i = 2 then some rDemo else none, nextProjectId := 2 }

/-- The refund of rDemo already approved. -/
def rApproved : RefundRequest := { rDemo with approved := true }

/-- Store with project 1 at 50 raised and the approved refund under id 2. -/
def stApproved : St :=
  { projects := fun i => if i = 1 then some pHalf else none,
    txns := [], refunds := fun i => if i = 2 then some rApproved else none, nextProjectId := 2 }

/-- Variant of pDemo whose goal of 100 is exactly met. -/
def pMet : Project := { pDemo with currentAmount := 100 }

/-- Store holding only pMet under project id 1. -/
def stMet : St :=
  { projects := fun i => if i = 1 then some pMet else none,
    txns := [], refunds := fun _ => none, nextProjectId := 2 }

/-- Create-project request body that also smuggles in caller-chosen values
for the columns the schema strips. -/
def bodyDemo : CreateProjectBody :=
  { goalAmount := "100", goalValue := 100, deadline := 10, category := none,
    currentAmount := some "999", isActive := some false, withdrawn := some true }

/-- C1, counterexample.  The claim requires currentAmount to equal the
exact decimal sum of accepted contributions computed with exact decimal
arithmetic.  Funding a fresh project with 0.1 and then 0.2 (both accepted
with status 201) leaves currentAmount at the binary64 value
1351079888211149 / 2 ^ 52 = 0.30000000000000004440892098500626...,
which is not the exact decimal sum 0.3: the handler adds parseFloat
results as JavaScript doubles. -/
theorem c1_counterexample_float_not_decimal :
    (fundHandler 0 1 "bob" (some (1 / 10)) "demo" none none stDemo).1.status = 201 ∧
    (fundHandler 0 1 "carol" (some (2 / 10)) "demo" none none
        (fundHandler 0 1 "bob" (some (1 / 10)) "demo" none none stDemo).2).1.status = 201 ∧
    currentOf (fundHandler 0 1 "carol" (some (2 / 10)) "demo" none none
        (fundHandler 0 1 "bob" (some (1 / 10)) "demo" none none stDemo).2).2 1 =
      some (mkRat 1351079888211149 4503599627370496) ∧
    ¬ currentOf (fundHandler 0 1 "carol" (some (2 / 10)) "demo" none none
        (fundHandler 0 1 "bob" (some (1 / 10)) "demo" none none stDemo).2).2 1 =
      some (1 / 10 + 2 / 10) := by decide

/-- C1, amended.  For every project and every sequence of fund, process-
refund and withdraw operations, the resulting currentAmount equals the
fold, over exactly the accepted contributions and first-time approved
refund deductions of that project, of binary64 addition respectively
binary64 subtraction clamped at a floor of zero — IEEE-754 double
arithmetic on the parseFloat values, not exact decimal arithmetic. -/
theorem c1_settlement_binary64 (ops : List FundingOp) (st : St) (pid : ℕ) :
    currentOf (runOps ops st) pid =
      (currentOf st pid).map (fun c => settle c (opTrace pid ops st)) := by
  induction ops generalizing st with
  | nil =>
    cases h : currentOf st pid <;> simp [runOps, opTrace, settle, h]
  | cons o os ih =>
    show currentOf (runOps os (stepOp o st)) pid = _
    rw [ih (stepOp o st)]
    show _ = (currentOf st pid).map fun c =>
      settle c ((opDelta pid o st).toList ++ opTrace pid os (stepOp o st))
    cases hc : currentOf st pid with
    | none =>
      rw [currentOf_stepOp_none o st pid hc]
      simp
    | some c =>
      rw [currentOf_stepOp_some o st pid c hc]
      simp [settle_toList_append]

/-- C2.  Processing an existing, not yet approved refund request twice
with approved set, by the caller matching its denormalized creatorId and
with its project present, deducts the amount exactly once: the first call
writes max(0, currentAmount - amount) in binary64 and latches the flag,
the second call leaves currentAmount unchanged while setting the approved
flag again. -/
theorem c2_double_approval_deducts_once (st : St) (rid : ℕ) (caller : String)
    (r : RefundRequest) (p : Project)
    (hr : st.refunds rid = some r) (hcr : r.creatorId = caller) (hap : r.approved = false)
    (hp : st.projects r.projectId = some p) :
    currentOf (processRefundHandler rid caller true st).2 r.projectId =
      some (max 0 (roundD (p.currentAmount - roundD r.amount))) ∧
    ((processRefundHandler rid caller true st).2.refunds rid).map RefundRequest.approved =
      some true ∧
    currentOf (processRefundHandler rid caller true
        (processRefundHandler rid caller true st).2).2 r.projectId =
      currentOf (processRefundHandler rid caller true st).2 r.projectId ∧
    ((processRefundHandler rid caller true
        (processRefundHandler rid caller true st).2).2.refunds rid).map
      RefundRequest.approved = some true := by
  have h1 := processRefundHandler_deducts st rid caller r p hr hcr hap hp
  set st1 := (processRefundHandler rid caller true st).2 with hst1
  have hst1eq : st1 = processRefundRequest (updateProjectAmount st r.projectId
      (max 0 (roundD (p.currentAmount - roundD r.amount)))) rid true := by
    rw [hst1, h1]
  have hrefl : st1.refunds rid = some { r with approved := true } := by
    rw [hst1eq, processRefundRequest_refunds_self, updateProjectAmount_refunds, hr]
    rfl
  have hcur1 : currentOf st1 r.projectId =
      some (max 0 (roundD (p.currentAmount - roundD r.amount))) := by
    rw [hst1eq, currentOf_processRefundRequest, currentOf_updateProjectAmount, if_pos rfl, hp]
    rfl
  have h2 := processRefundHandler_already_approved st1 rid caller { r with approved := true }
    hrefl hcr rfl
  refine ⟨hcur1, ?_, ?_, ?_⟩
  · rw [hrefl]
    rfl
  · rw [h2, currentOf_processRefundRequest]
  · rw [h2]
    show ((processRefundRequest st1 rid true).refunds rid).map RefundRequest.approved = _
    rw [processRefundRequest_refunds_self, hrefl]
    rfl

/-- C2 witness at a concrete store: refund 2 of 30 against project 1 at
50 raised, approved twice by alice. -/
theorem c2_witness :
    (stRefund.refunds 2 = some rDemo ∧ rDemo.creatorId = "alice" ∧ rDemo.approved = false ∧
      stRefund.projects rDemo.projectId = some pHalf) ∧
    currentOf (processRefundHandler 2 "alice" true stRefund).2 rDemo.projectId =
      some (max 0 (roundD (pHalf.currentAmount - roundD rDemo.amount))) ∧
    ((processRefundHandler 2 "alice" true stRefund).2.refunds 2).map RefundRequest.approved =
      some true ∧
    currentOf (processRefundHandler 2 "alice" true
        (processRefundHandler 2 "alice" true stRefund).2).2 rDemo.projectId =
      currentOf (processRefundHandler 2 "alice" true stRefund).2 rDemo.projectId ∧
    ((processRefundHandler 2 "alice" true
        (processRefundHandler 2 "alice" true stRefund).2).2.refunds 2).map
      RefundRequest.approved = some true :=
  ⟨⟨by decide, by decide, by decide, by decide⟩,
    c2_double_approval_deducts_once stRefund 2 "alice" rDemo pHalf (by decide) (by decide)
      (by decide) (by decide)⟩

/-- C3.  A withdraw that succeeds (project exists, caller is the creator,
not yet withdrawn, goal met, deadline not passed) answers 200; any second
withdraw by the same creator, at any time, answers 400 with the message
Funds already withdrawn and leaves the state, hence both currentAmount
and the withdrawn flag, exactly as after the first call. -/
theorem c3_withdraw_at_most_once (st : St) (pid : ℕ) (caller : String) (p : Project)
    (now1 now2 : ℤ)
    (hp : st.projects pid = some p) (hcr : p.creatorId = caller) (hw : p.withdrawn = false)
    (hg : ¬ p.currentAmount < p.goalAmount) (hd : ¬ p.deadline < now1) :
    (withdrawHandler now1 pid caller st).1.status = 200 ∧
    (withdrawHandler now2 pid caller (withdrawHandler now1 pid caller st).2).1 =
      ⟨400, "Funds already withdrawn"⟩ ∧
    (withdrawHandler now2 pid caller (withdrawHandler now1 pid caller st).2).2 =
      (withdrawHandler now1 pid caller st).2 := by
  have h1 := withdrawHandler_succeeds now1 pid caller st p hp hcr hw hg hd
  set stW := (withdrawHandler now1 pid caller st).2 with hstW
  have hp2 : stW.projects pid = some { p with withdrawn := true } := by
    rw [hstW, h1]
    show (markProjectWithdrawn st pid).projects pid = _
    rw [markProjectWithdrawn_projects_self, hp]
    rfl
  have h2 : withdrawHandler now2 pid caller stW = (⟨400, "Funds already withdrawn"⟩, stW) := by
    unfold withdrawHandler
    rw [hp2]
    simp [hcr]
  exact ⟨by rw [h1], by rw [h2], by rw [h2]⟩

/-- C3 witness: project 1 with its goal of 100 exactly met, withdrawn by
alice at time 0 and again at time 99. -/
theorem c3_witness :
    (stMet.projects 1 = some pMet ∧ pMet.creatorId = "alice" ∧ pMet.withdrawn = false ∧
      ¬ pMet.currentAmount < pMet.goalAmount ∧ ¬ pMet.deadline < (0 : ℤ)) ∧
    (withdrawHandler 0 1 "alice" stMet).1.status = 200 ∧
    (withdrawHandler 99 1 "alice" (withdrawHandler 0 1 "alice" stMet).2).1 =
      ⟨400, "Funds already withdrawn"⟩ ∧
    (withdrawHandler 99 1 "alice" (withdrawHandler 0 1 "alice" stMet).2).2 =
      (withdrawHandler 0 1 "alice" stMet).2 :=
  ⟨⟨by decide, by decide, by decide, by decide, by decide⟩,
    c3_withdraw_at_most_once stMet 1 "alice" pMet 0 99 (by decide) (by decide) (by decide)
      (by decide) (by decide)⟩

/-- C4, counterexample.  The claim makes approved a one-way latch.  On
the store holding the already approved refund 2, processing it again with
approved set to false flips the stored flag back to false. -/
theorem c4_counterexample_flag_reset :
    (stApproved.refunds 2).map RefundRequest.approved = some true ∧
    ((processRefundHandler 2 "alice" false stApproved).2.refunds 2).map
      RefundRequest.approved = some false := by decide

/-- C4, amended.  The approved column is not a latch: every process call
with approved false overwrites the flag of an existing refund with false,
whatever its previous value, while touching no project balance. -/
theorem c4_amended_reject_overwrites (st : St) (rid : ℕ) (caller : String)
    (r : RefundRequest) (hr : st.refunds rid = some r) :
    (processRefundHandler rid caller false st).2.refunds rid =
      some { r with approved := false } ∧
    (processRefundHandler rid caller false st).2.projects = st.projects := by
  constructor
  · show (processRefundRequest st rid false).refunds rid = _
    rw [processRefundRequest_refunds_self, hr]
    rfl
  · show (processRefundRequest st rid false).projects = st.projects
    exact processRefundRequest_projects st rid false

/-- C4 witness: the approved refund 2 of stApproved, rejected by anyone,
ends up with approved false and untouched projects. -/
theorem c4_witness :
    stApproved.refunds 2 = some rApproved ∧
    (processRefundHandler 2 "alice" false stApproved).2.refunds 2 =
      some { rApproved with approved := false } ∧
    (processRefundHandler 2 "alice" false stApproved).2.projects = stApproved.projects :=
  ⟨by decide,
    (c4_amended_reject_overwrites stApproved 2 "alice" rApproved (by decide)).1,
    (c4_amended_reject_overwrites stApproved 2 "alice" rApproved (by decide)).2⟩

/-- C5, counterexample.  The claim says a caller other than the creator
is rejected and the approved flag is unchanged.  With caller mallory and
creator alice, the call answers 200 and the stored flag becomes true. -/
theorem c5_counterexample_not_rejected :
    ¬ rDemo.creatorId = "mallory" ∧
    (stRefund.refunds 2).map RefundRequest.approved = some false ∧
    (processRefundHandler 2 "mallory" true stRefund).1.status = 200 ∧
    ((processRefundHandler 2 "mallory" true stRefund).2.refunds 2).map
      RefundRequest.approved = some true := by decide

/-- C5, amended.  For a caller different from the denormalized creatorId
the deduction is skipped, so every currentAmount is unchanged, but the
call is not rejected: it answers 200 and unconditionally sets the
approved flag of the refund to the supplied boolean. -/
theorem c5_amended_wrong_creator (st : St) (rid : ℕ) (caller : String) (b : Bool)
    (r : RefundRequest) (hr : st.refunds rid = some r) (hne : ¬ r.creatorId = caller) :
    (processRefundHandler rid caller b st).1 =
      ⟨200, "Refund request processed successfully"⟩ ∧
    (processRefundHandler rid caller b st).2.refunds rid = some { r with approved := b } ∧
    (processRefundHandler rid caller b st).2.projects = st.projects := by
  have hlook := refundLookupByCreator_wrong_creator st caller rid r hr hne
  have hst1 : processRefundHandler rid caller b st =
      (⟨200, "Refund request processed successfully"⟩, processRefundRequest st rid b) := by
    unfold processRefundHandler
    cases b with
    | false => rfl
    | true =>
      rw [hlook]
      rfl
  rw [hst1]
  exact ⟨rfl, by rw [processRefundRequest_refunds_self, hr]; rfl,
    processRefundRequest_projects st rid b⟩

/-- C5 witness: mallory approves the pending refund 2 whose creator is
alice; the call succeeds, the flag flips, the projects are untouched. -/
theorem c5_witness :
    (stRefund.refunds 2 = some rDemo ∧ ¬ rDemo.creatorId = "mallory") ∧
    (processRefundHandler 2 "mallory" true stRefund).1 =
      ⟨200, "Refund request processed successfully"⟩ ∧
    (processRefundHandler 2 "mallory" true stRefund).2.refunds 2 =
      some { rDemo with approved := true } ∧
    (processRefundHandler 2 "mallory" true stRefund).2.projects = stRefund.projects :=
  ⟨⟨by decide, by decide⟩,
    c5_amended_wrong_creator stRefund 2 "mallory" true rDemo (by decide) (by decide)⟩

/-- C6, counterexample.  The claim requires HTTP 404 for a refund id that
does not exist.  Processing the missing refund 7 answers 200, not 404. -/
theorem c6_counterexample_no_404 :
    stRefund.refunds 7 = none ∧
    (processRefundHandler 7 "alice" true stRefund).1.status = 200 ∧
    ¬ (processRefundHandler 7 "alice" true stRefund).1.status = 404 := by decide

/-- C6, amended.  For a refund id without a row the endpoint does not
fail: it answers 200 with the success message, and no stored state
changes (the flag update matches no row and no deduction happens). -/
theorem c6_amended_missing_refund_silent (st : St) (rid : ℕ) (caller : String) (b : Bool)
    (hr : st.refunds rid = none) :
    (processRefundHandler rid caller b st).1 =
      ⟨200, "Refund request processed successfully"⟩ ∧
    (processRefundHandler rid caller b st).2 = st := by
  have hlook := refundLookupByCreator_missing st caller rid hr
  have hst1 : processRefundHandler rid caller b st =
      (⟨200, "Refund request processed successfully"⟩, processRefundRequest st rid b) := by
    unfold processRefundHandler
    cases b with
    | false => rfl
    | true =>
      rw [hlook]
      rfl
  rw [hst1, processRefundRequest_missing st rid b hr]
  exact ⟨rfl, rfl⟩

/-- C6 witness: approving the missing refund 7 of stRefund answers 200
and returns the store unchanged. -/
theorem c6_witness :
    stRefund.refunds 7 = none ∧
    (processRefundHandler 7 "carol" true stRefund).1 =
      ⟨200, "Refund request processed successfully"⟩ ∧
    (processRefundHandler 7 "carol" true stRefund).2 = stRefund :=
  ⟨by decide,
    (c6_amended_missing_refund_silent stRefund 7 "carol" true (by decide)).1,
    (c6_amended_missing_refund_silent stRefund 7 "carol" true (by decide)).2⟩

/-- C7.  The contribution deadline is inclusive: for an active existing
project and a request with valid amount and type, the fund handler
rejects with the deadline message exactly when now is strictly after the
deadline, and at now equal to the deadline the response is never the
deadline rejection. -/
theorem c7_deadline_boundary_inclusive (st : St) (pid : ℕ) (caller : String) (p : Project)
    (now : ℤ) (v : ℚ) (ty : String) (w h : Option String)
    (hp : st.projects pid = some p) (hact : p.isActive = true)
    (hv : 0 < roundD v) (hty : ty = "real" ∨ ty = "demo") :
    (p.deadline < now →
      fundHandler now pid caller (some v) ty w h st =
        (⟨400, "Project deadline has passed"⟩, st)) ∧
    (now = p.deadline →
      ¬ (fundHandler now pid caller (some v) ty w h st).1.msg =
        "Project deadline has passed") := by
  constructor
  · intro hlate
    unfold fundHandler
    rw [if_neg (not_not_intro hty)]
    dsimp only []
    rw [if_neg (not_le.mpr hv), hp]
    dsimp only []
    rw [if_pos hlate]
  · intro heq
    have hd : ¬ p.deadline < now := by omega
    by_cases hg : p.goalAmount ≤ p.currentAmount
    · have hrej : fundHandler now pid caller (some v) ty w h st =
          (⟨400, "Funding goal has been reached. No more transactions accepted."⟩, st) := by
        unfold fundHandler
        rw [if_neg (not_not_intro hty)]
        dsimp only []
        rw [if_neg (not_le.mpr hv), hp]
        dsimp only []
        rw [if_neg hd, if_neg (not_not_intro hact), if_pos hg]
      rw [hrej]
      show ¬ "Funding goal has been reached. No more transactions accepted." =
        "Project deadline has passed"
      decide
    · rw [fundHandler_accepts now pid caller v ty w h st p hp hty hv hd hact hg]
      show ¬ "" = "Project deadline has passed"
      decide

/-- C7 witness on stDemo, deadline 10: at time 11 the fund request dies
with the deadline message, at time 10 exactly it does not. -/
theorem c7_witness :
    (stDemo.projects 1 = some pDemo ∧ pDemo.isActive = true ∧ 0 < roundD 5 ∧
      ("demo" = "real" ∨ "demo" = "demo")) ∧
    (pDemo.deadline < 11 →
      fundHandler 11 1 "bob" (some 5) "demo" none none stDemo =
        (⟨400, "Project deadline has passed"⟩, stDemo)) ∧
    ((10 : ℤ) = pDemo.deadline →
      ¬ (fundHandler 10 1 "bob" (some 5) "demo" none none stDemo).1.msg =
        "Project deadline has passed") :=
  ⟨⟨by decide, by decide, by decide, by decide⟩,
    (c7_deadline_boundary_inclusive stDemo 1 "bob" pDemo 11 5 "demo" none none (by decide)
      (by decide) (by decide) (by decide)).1,
    (c7_deadline_boundary_inclusive stDemo 1 "bob" pDemo 10 5 "demo" none none (by decide)
      (by decide) (by decide) (by decide)).2⟩

/-- C8.  For an active, non-expired project whose currentAmount already
reaches its goalAmount, a fund request with valid amount and type is
answered 400 with the goal-reached message and the store is returned
unchanged: no Transaction is created and currentAmount stays as it was. -/
theorem c8_goal_met_rejected (st : St) (pid : ℕ) (caller : String) (p : Project)
    (now : ℤ) (v : ℚ) (ty : String) (w h : Option String)
    (hp : st.projects pid = some p) (hact : p.isActive = true) (hv : 0 < roundD v)
    (hty : ty = "real" ∨ ty = "demo") (hd : ¬ p.deadline < now)
    (hg : p.goalAmount ≤ p.currentAmount) :
    fundHandler now pid caller (some v) ty w h st =
      (⟨400, "Funding goal has been reached. No more transactions accepted."⟩, st) := by
  unfold fundHandler
  rw [if_neg (not_not_intro hty)]
  dsimp only []
  rw [if_neg (not_le.mpr hv), hp]
  dsimp only []
  rw [if_neg hd, if_neg (not_not_intro hact), if_pos hg]

/-- C8 witness: funding the goal-met project of stMet at time 0 is
rejected and the store is unchanged. -/
theorem c8_witness :
    (stMet.projects 1 = some pMet ∧ pMet.isActive = true ∧ 0 < roundD 5 ∧
      ("demo" = "real" ∨ "demo" = "demo") ∧ ¬ pMet.deadline < (0 : ℤ) ∧
      pMet.goalAmount ≤ pMet.currentAmount) ∧
    fundHandler 0 1 "bob" (some 5) "demo" none none stMet =
      (⟨400, "Funding goal has been reached. No more transactions accepted."⟩, stMet) :=
  ⟨⟨by decide, by decide, by decide, by decide, by decide, by decide⟩,
    c8_goal_met_rejected stMet 1 "bob" pMet 0 5 "demo" none none (by decide) (by decide)
      (by decide) (by decide) (by decide) (by decide)⟩

/-- C9.  Every successful project creation stores currentAmount 0,
isActive true and withdrawn false: insertProjectSchema omits those three
columns, zod strips whatever the caller supplied for them, and the table
defaults apply, for every request body passing validation. -/
theorem c9_create_project_forces_defaults (caller : String) (b : CreateProjectBody) (st : St)
    (hga : ¬ b.goalAmount.length = 0) (hdl : 0 < b.deadline)
    (hcat : b.category.getD "other" = "tech" ∨ b.category.getD "other" = "art" ∨
      b.category.getD "other" = "social" ∨ b.category.getD "other" = "environment" ∨
      b.category.getD "other" = "other") :
    (createProjectHandler caller b st).1.status = 201 ∧
    (createProjectHandler caller b st).2.projects st.nextProjectId =
      some { creatorId := caller, goalAmount := b.goalValue, currentAmount := 0,
             deadline := b.deadline, isActive := true, withdrawn := false } := by
  unfold createProjectHandler
  dsimp only []
  rw [if_neg hga, if_neg (not_not_intro hdl), if_neg (not_not_intro hcat)]
  constructor
  · rfl
  · dsimp only []
    rw [if_pos rfl]

/-- C9 witness: bodyDemo smuggles currentAmount 999, isActive false and
withdrawn true past the schema; the stored row still has the defaults. -/
theorem c9_witness :
    (¬ bodyDemo.goalAmount.length = 0 ∧ 0 < bodyDemo.deadline ∧
      (bodyDemo.category.getD "other" = "tech" ∨ bodyDemo.category.getD "other" = "art" ∨
        bodyDemo.category.getD "other" = "social" ∨
        bodyDemo.category.getD "other" = "environment" ∨
        bodyDemo.category.getD "other" = "other")) ∧
    (createProjectHandler "carol" bodyDemo stDemo).1.status = 201 ∧
    (createProjectHandler "carol" bodyDemo stDemo).2.projects stDemo.nextProjectId =
      some { creatorId := "carol", goalAmount := bodyDemo.goalValue, currentAmount := 0,
             deadline := bodyDemo.deadline, isActive := true, withdrawn := false } :=
  ⟨⟨by decide, by decide, by decide⟩,
    (c9_create_project_forces_defaults "carol" bodyDemo stDemo (by decide) (by decide)
      (by decide)).1,
    (c9_create_project_forces_defaults "carol" bodyDemo stDemo (by decide) (by decide)
      (by decide)).2⟩

/-- C10.  The goal cap checks only the pre-contribution balance, so a
single accepted contribution can overshoot the goal by an arbitrary
margin: on the fresh project of stDemo with currentAmount 0 below its
goal 100, for every nonnegative margin M some accepted amount leaves
currentAmount at least goalAmount + M. -/
theorem c10_goal_overshoot_unbounded (M : ℚ) (hM : 0 ≤ M) :
    pDemo.currentAmount < pDemo.goalAmount ∧
    ∃ amt : ℚ,
      (fundHandler 0 1 "bob" (some amt) "demo" none none stDemo).1.status = 201 ∧
      ∃ q : ℚ,
        currentOf (fundHandler 0 1 "bob" (some amt) "demo" none none stDemo).2 1 = some q ∧
        pDemo.goalAmount + M ≤ q := by
  have hamt : (0 : ℚ) < 8 * (100 + M) := by linarith
  have h1 : 4 * (100 + M) < roundD (8 * (100 + M)) := by
    have h2 := half_lt_roundD hamt
    linarith
  have hpos : 0 < roundD (8 * (100 + M)) := by linarith
  have hacc := fundHandler_accepts 0 1 "bob" (8 * (100 + M)) "demo" none none stDemo pDemo
    (by decide) (Or.inr rfl) hpos (by decide) (by decide) (by decide)
  refine ⟨by decide, 8 * (100 + M), ?_,
    roundD (pDemo.currentAmount + roundD (8 * (100 + M))), ?_, ?_⟩
  · rw [hacc]
  · rw [hacc, currentOf_updateProjectAmount, if_pos rfl, createTransaction_projects]
    rw [show stDemo.projects 1 = some pDemo from rfl]
    rfl
  · have hz : pDemo.currentAmount + roundD (8 * (100 + M)) = roundD (8 * (100 + M)) := by
      show (0 : ℚ) + _ = _
      rw [zero_add]
    rw [hz]
    have h3 := half_lt_roundD hpos
    show (100 : ℚ) + M ≤ _
    linarith

/-- C10 witness at margin one million: some accepted single contribution
pushes currentAmount to at least 100 + 1000000. -/
theorem c10_witness :
    (0 : ℚ) ≤ 1000000 ∧
    (pDemo.currentAmount < pDemo.goalAmount ∧
      ∃ amt : ℚ,
        (fundHandler 0 1 "bob" (some amt) "demo" none none stDemo).1.status = 201 ∧
        ∃ q : ℚ,
          currentOf (fundHandler 0 1 "bob" (some amt) "demo" none none stDemo).2 1 = some q ∧
          pDemo.goalAmount + 1000000 ≤ q) :=
  ⟨by decide, c10_goal_overshoot_unbounded 1000000 (by decide)⟩

end CrowdFund
